import Mathlib

/-!
Shallow embedding of the TUSX stock portfolio manager (src/main.py).

Conventions of the embedding:
* Python floats are modelled as rationals (ℚ); all arithmetic in the
  source is elementary (+, -, *, /) so rational arithmetic is exact.
* The external Quote Provider (yfinance) is an oracle
  `provider : String → Option ℚ`: `get_current_stock_price` catches every
  exception and returns `None` on failure, so `none` models a failed
  fetch and `some p` a successful one returning price `p`.
* Python code that can raise `ZeroDivisionError` is modelled in
  `Except Unit`, with `.error ()` standing for the exception escaping.
* Python truthiness of an optional float (`x or y`, `if current_price:`)
  treats both `None` and `0.0` as falsy; `pyOr` models the former and
  the monitor handles the latter explicitly, as in the source.
* The `ThreadPoolExecutor` fan-out collects one result per submitted
  position (`as_completed` yields every future); completion order is an
  arbitrary permutation of submission order, which theorems quantify
  over where it matters.
* The Redis store holds one serialized value under a fixed key; it is
  modelled as `Option Json` (absent key = `none`), with the json
  encoding of the portfolio made structural.
-/

namespace TUSX

/-- A persisted portfolio entry, the dict
`{id, symbol, shares, purchase_price, threshold}` built by `add_stock`. -/
structure Stock where
  id : Nat
  symbol : String
  shares : Nat
  purchase_price : ℚ
  threshold : ℚ
deriving DecidableEq

/-- The per-position row built by `fetch_stock_details`
(`[id, symbol, shares, purchase_price, current_price, change, threshold]`),
with the change kept as a number (the terminal colouring is presentation). -/
structure Snapshot where
  positionId : Nat
  symbol : String
  shares : Nat
  purchasePrice : ℚ
  currentPrice : ℚ
  changePercent : ℚ
  threshold : ℚ
deriving DecidableEq

/-- `get_tsx_symbol`: append the fixed TSX market suffix. -/
def get_tsx_symbol (symbol : String) : String := symbol ++ ".TO"

/-- `get_current_stock_price`: query the provider oracle on the
normalized symbol; every exception is caught and surfaced as `none`. -/
def get_current_stock_price (provider : String → Option ℚ) (symbol : String) : Option ℚ :=
  provider (get_tsx_symbol symbol)

/-- Python `x or y` where `x` is an optional float: `None` and `0.0` are
falsy, so both fall through to `y`. -/
def pyOr (x : Option ℚ) (y : ℚ) : ℚ :=
  match x with
  | none => y
  | some p => if p = 0 then y else p

/-- `fetch_stock_details`: build the snapshot row for one stock.
`current_price = get_current_stock_price(symbol) or purchase_price`;
the change computation divides by `purchase_price` with no guard, which
in Python raises `ZeroDivisionError` when it is zero (`.error ()`). -/
def fetch_stock_details (provider : String → Option ℚ) (stock : Stock) :
    Except Unit Snapshot :=
  let current_price := pyOr (get_current_stock_price provider stock.symbol) stock.purchase_price
  if stock.purchase_price = 0 then .error ()
  else
    .ok { positionId := stock.id
          symbol := stock.symbol
          shares := stock.shares
          purchasePrice := stock.purchase_price
          currentPrice := current_price
          changePercent := (current_price - stock.purchase_price) / stock.purchase_price * 100
          threshold := stock.threshold }

/-- The fan-out/fan-in of `list_stocks` and `portfolio_summary`: one
`fetch_stock_details` task per position, all results collected before
returning. An exception in any task propagates when its result is read. -/
def fetch_all_details (provider : String → Option ℚ) :
    List Stock → Except Unit (List Snapshot)
  | [] => .ok []
  | s :: t =>
    match fetch_stock_details provider s with
    | .error e => .error e
    | .ok snap =>
      match fetch_all_details provider t with
      | .error e => .error e
      | .ok rest => .ok (snap :: rest)

/-- `update_stock`: set the four editable fields on the first entry whose
id matches, then stop (the `break`); the id itself is not written. -/
def update_stock (stock_id : Nat) (symbol : String) (shares : Nat)
    (purchase_price threshold : ℚ) : List Stock → List Stock
  | [] => []
  | s :: t =>
    if s.id = stock_id then
      { s with symbol := symbol, shares := shares,
               purchase_price := purchase_price, threshold := threshold } :: t
    else
      s :: update_stock stock_id symbol shares purchase_price threshold t

/-- The renumbering loop of `delete_stock`:
`for index, stock in enumerate(portfolio): stock['id'] = index + 1`. -/
def renumber (n : Nat) : List Stock → List Stock
  | [] => []
  | s :: t => { s with id := n } :: renumber (n + 1) t

/-- `delete_stock`: drop every entry with the given id, then renumber the
survivors to `1..len` in list order. -/
def delete_stock (stock_id : Nat) (portfolio_list : List Stock) : List Stock :=
  renumber 1 (portfolio_list.filter (fun s => s.id ≠ stock_id))

/-- The fields of a stock other than its id, used to state that deletion
and renumbering keep everything but the id. -/
def stockFields (s : Stock) : String × Nat × ℚ × ℚ :=
  (s.symbol, s.shares, s.purchase_price, s.threshold)

/-- The totals computed at the end of `portfolio_summary`
(lines 433-479 of src/main.py). -/
structure PortfolioTotals where
  totalValue : ℚ
  totalPurchaseValue : ℚ
  totalShares : ℚ
  totalProfitLoss : ℚ
  percentProfitLoss : ℚ
  avgPurchasePrice : ℚ
  avgCurrentPrice : ℚ
deriving DecidableEq

/-- The summarizer reduction of `portfolio_summary`: sums of
`shares * current_price` and `shares * purchase_price` over the snapshot
rows (order irrelevant: addition is commutative), then
`total_profit_loss = total_value - total_purchase_value` and the three
guarded divisions.  The dividend-yield enrichment and all table
formatting touch neither these accumulators nor the claims. -/
def portfolio_summary_totals (snaps : List Snapshot) : PortfolioTotals :=
  let total_value := (snaps.map (fun d => (d.shares : ℚ) * d.currentPrice)).sum
  let total_purchase_value := (snaps.map (fun d => (d.shares : ℚ) * d.purchasePrice)).sum
  let total_shares := (snaps.map (fun d => (d.shares : ℚ))).sum
  let total_profit_loss := total_value - total_purchase_value
  { totalValue := total_value
    totalPurchaseValue := total_purchase_value
    totalShares := total_shares
    totalProfitLoss := total_profit_loss
    percentProfitLoss :=
      if total_purchase_value > 0 then total_profit_loss / total_purchase_value * 100 else 0
    avgPurchasePrice := if total_shares > 0 then total_purchase_value / total_shares else 0
    avgCurrentPrice := if total_shares > 0 then total_value / total_shares else 0 }

/-- The change formula of the monitor loop:
`((current_price - purchase_price) / purchase_price) * 100`. -/
def monitor_change (stock : Stock) (current_price : ℚ) : ℚ :=
  (current_price - stock.purchase_price) / stock.purchase_price * 100

/-- One iteration of the monitor loop body for one stock: fetch the
price; `if current_price:` skips `None` and `0.0`; otherwise compute the
change (raising if `purchase_price` is zero) and alert iff
`change <= threshold`.  `true` means one alert was printed. -/
def monitor_eval (provider : String → Option ℚ) (stock : Stock) : Except Unit Bool :=
  match get_current_stock_price provider stock.symbol with
  | none => .ok false
  | some current_price =>
    if current_price = 0 then .ok false
    else if stock.purchase_price = 0 then .error ()
    else .ok (decide (monitor_change stock current_price ≤ stock.threshold))

/-- One full cycle of `monitor_portfolio` over a loaded portfolio:
evaluate each position in order; an uncaught exception aborts the loop
(and the monitor thread), leaving later positions unevaluated. -/
def monitor_portfolio_cycle (provider : String → Option ℚ) :
    List Stock → Except Unit (List Bool)
  | [] => .ok []
  | s :: t =>
    match monitor_eval provider s with
    | .error e => .error e
    | .ok b =>
      match monitor_portfolio_cycle provider t with
      | .error e => .error e
      | .ok bs => .ok (b :: bs)

/-- Structural json values, the image of `json.dumps`/`json.loads` for
the data this program stores. -/
inductive Json where
  | num : ℚ → Json
  | str : String → Json
  | arr : List Json → Json
  | obj : List (String × Json) → Json

/-- Key lookup in a json object (Python dict access). -/
def jlookup (k : String) : List (String × Json) → Option Json
  | [] => none
  | (k2, v) :: t => if k2 = k then some v else jlookup k t

/-- Serialization of one portfolio entry, with the key order of the dict
literal in `add_stock`. -/
def encode_stock (s : Stock) : Json :=
  .obj [("id", .num s.id), ("symbol", .str s.symbol), ("shares", .num s.shares),
        ("purchase_price", .num s.purchase_price), ("threshold", .num s.threshold)]

/-- Deserialization of one portfolio entry: read the five fields back,
requiring the id and share count to be the non-negative integers the
program stores. -/
def decode_stock (j : Json) : Option Stock :=
  match j with
  | .obj fields =>
    match jlookup "id" fields, jlookup "symbol" fields, jlookup "shares" fields,
          jlookup "purchase_price" fields, jlookup "threshold" fields with
    | some (.num i), some (.str sym), some (.num sh), some (.num pp), some (.num th) =>
      if i.den = 1 ∧ 0 ≤ i.num ∧ sh.den = 1 ∧ 0 ≤ sh.num then
        some { id := i.num.toNat, symbol := sym, shares := sh.num.toNat,
               purchase_price := pp, threshold := th }
      else none
    | _, _, _, _, _ => none
  | _ => none

/-- Deserialization of a stored list of entries, element by element. -/
def decode_stocks : List Json → Option (List Stock)
  | [] => some []
  | j :: t =>
    match decode_stock j, decode_stocks t with
    | some s, some st => some (s :: st)
    | _, _ => none

/-- Deserialization of the whole stored value. -/
def decode_portfolio_data (j : Json) : Option (List Stock) :=
  match j with
  | .arr l => decode_stocks l
  | _ => none

/-- `save_portfolio`: `r.set('portfolio', json.dumps(portfolio))`, the
stored value being the serialized list. -/
def save_portfolio_data (ps : List Stock) : Json :=
  .arr (ps.map encode_stock)

/-- `load_portfolio`: `r.get('portfolio')` returns `[]` when the key is
absent, otherwise the deserialized stored value. -/
def load_portfolio_data (store : Option Json) : Option (List Stock) :=
  match store with
  | none => some []
  | some j => decode_portfolio_data j

/-- C1: for every position the monitor evaluates (the price fetch
returned a truthy value) the alert fires exactly when the percentage
change is at or below the threshold; equality at the boundary alerts. -/
theorem monitor_alert_iff_change_le_threshold (provider : String → Option ℚ)
    (stock : Stock) (p : ℚ)
    (hfetch : get_current_stock_price provider stock.symbol = some p)
    (hp : p ≠ 0) (hpp : stock.purchase_price ≠ 0) :
    monitor_eval provider stock = .ok true ↔ monitor_change stock p ≤ stock.threshold := by
  simp [monitor_eval, hfetch, hp, hpp]

/-- Witness for C1 at the spec example: purchase 100, threshold -10,
fetched price 85, hence change -15 and one alert. -/
theorem monitor_alert_iff_change_le_threshold_witness :
    (monitor_eval (fun _ => some 85) ⟨1, "XYZ", 10, 100, -10⟩ = .ok true
      ↔ monitor_change ⟨1, "XYZ", 10, 100, -10⟩ 85 ≤ (⟨1, "XYZ", 10, 100, -10⟩ : Stock).threshold)
    ∧ monitor_change ⟨1, "XYZ", 10, 100, -10⟩ 85 = -15 :=
  ⟨monitor_alert_iff_change_le_threshold (fun _ => some 85) ⟨1, "XYZ", 10, 100, -10⟩ 85
      rfl (by norm_num) (by norm_num),
    by norm_num [monitor_change]⟩

/-- C2: a failed quote fetch makes the snapshot fall back to the
purchase price with zero change, and the failure is not propagated:
the per-position task still returns an ordinary row. -/
theorem fetch_failure_uses_fallback (provider : String → Option ℚ) (stock : Stock)
    (hfail : get_current_stock_price provider stock.symbol = none)
    (hpp : stock.purchase_price ≠ 0) :
    ∃ snap, fetch_stock_details provider stock = .ok snap
      ∧ snap.currentPrice = stock.purchase_price ∧ snap.changePercent = 0 := by
  have h : fetch_stock_details provider stock = .ok
      { positionId := stock.id, symbol := stock.symbol, shares := stock.shares,
        purchasePrice := stock.purchase_price, currentPrice := stock.purchase_price,
        changePercent := 0, threshold := stock.threshold } := by
    simp [fetch_stock_details, hfail, pyOr, hpp]
  exact ⟨_, h, rfl, rfl⟩

/-- Witness for C2: provider failing on every symbol, a stock bought at 100. -/
theorem fetch_failure_uses_fallback_witness :
    ∃ snap, fetch_stock_details (fun _ => none) ⟨1, "ABC", 5, 100, -10⟩ = .ok snap
      ∧ snap.currentPrice = (⟨1, "ABC", 5, 100, -10⟩ : Stock).purchase_price
      ∧ snap.changePercent = 0 :=
  fetch_failure_uses_fallback (fun _ => none) ⟨1, "ABC", 5, 100, -10⟩ rfl (by norm_num)

/-- C9: a successfully fetched price of exactly 0 is indistinguishable
from a failed fetch: the snapshot substitutes the purchase price (zero
change) and the monitor skips the threshold evaluation, whatever the
threshold is. -/
theorem zero_price_treated_as_failure (stock : Stock)
    (hpp : stock.purchase_price ≠ 0) :
    fetch_stock_details (fun _ => some 0) stock = fetch_stock_details (fun _ => none) stock
    ∧ (∃ snap, fetch_stock_details (fun _ => some 0) stock = .ok snap
        ∧ snap.currentPrice = stock.purchase_price ∧ snap.changePercent = 0)
    ∧ monitor_eval (fun _ => some 0) stock = .ok false := by
  refine ⟨by simp [fetch_stock_details, get_current_stock_price, pyOr], ?_, ?_⟩
  · have h : fetch_stock_details (fun _ => some 0) stock = .ok
        { positionId := stock.id, symbol := stock.symbol, shares := stock.shares,
          purchasePrice := stock.purchase_price, currentPrice := stock.purchase_price,
          changePercent := 0, threshold := stock.threshold } := by
      simp [fetch_stock_details, get_current_stock_price, pyOr, hpp]
    exact ⟨_, h, rfl, rfl⟩
  · simp [monitor_eval, get_current_stock_price]

/-- Witness for C9: a price of 0 would breach the -10 threshold
(change -100), yet no alert is evaluated. -/
theorem zero_price_treated_as_failure_witness :
    fetch_stock_details (fun _ => some 0) ⟨1, "ABC", 5, 100, -10⟩
        = fetch_stock_details (fun _ => none) ⟨1, "ABC", 5, 100, -10⟩
    ∧ (∃ snap, fetch_stock_details (fun _ => some 0) ⟨1, "ABC", 5, 100, -10⟩ = .ok snap
        ∧ snap.currentPrice = (⟨1, "ABC", 5, 100, -10⟩ : Stock).purchase_price
        ∧ snap.changePercent = 0)
    ∧ monitor_eval (fun _ => some 0) ⟨1, "ABC", 5, 100, -10⟩ = .ok false :=
  zero_price_treated_as_failure ⟨1, "ABC", 5, 100, -10⟩ (by norm_num)

/-- C5: the summarizer satisfies
`totalProfitLoss = totalValue - totalPurchaseValue` exactly for every
snapshot list, and every total of the empty list is zero. -/
theorem summarize_profit_loss_identity (snaps : List Snapshot) :
    (portfolio_summary_totals snaps).totalProfitLoss
      = (portfolio_summary_totals snaps).totalValue
        - (portfolio_summary_totals snaps).totalPurchaseValue
    ∧ portfolio_summary_totals [] = ⟨0, 0, 0, 0, 0, 0, 0⟩ :=
  ⟨rfl, by norm_num [portfolio_summary_totals]⟩

/-- C6 counterexample: the claim that the per-position `changePercent`
computation never raises on a zero denominator is false:
`fetch_stock_details` divides by `purchase_price` with no guard, so a
stock with `purchase_price = 0` raises `ZeroDivisionError`. -/
theorem changePercent_raises_on_zero_purchase :
    fetch_stock_details (fun _ => some 5) ⟨1, "ZRO", 1, 0, -10⟩ = .error () := rfl

/-- C6 amended: the summary-level divisions are guarded — a zero total
purchase value gives `percentProfitLoss = 0` and a zero total share
count gives both averages 0 — but the per-position change computation
raises when `purchase_price` is zero. -/
theorem summary_divisions_zero_denominator (snaps : List Snapshot) (stock : Stock)
    (provider : String → Option ℚ)
    (h1 : (portfolio_summary_totals snaps).totalPurchaseValue = 0)
    (h2 : (portfolio_summary_totals snaps).totalShares = 0)
    (h3 : stock.purchase_price = 0) :
    (portfolio_summary_totals snaps).percentProfitLoss = 0
    ∧ (portfolio_summary_totals snaps).avgPurchasePrice = 0
    ∧ (portfolio_summary_totals snaps).avgCurrentPrice = 0
    ∧ fetch_stock_details provider stock = .error () := by
  simp only [portfolio_summary_totals] at h1 h2 ⊢
  rw [h1, h2]
  refine ⟨by simp, by simp, by simp, ?_⟩
  simp [fetch_stock_details, h3]

/-- Witness for C6 amended: the empty snapshot list (all totals zero)
and a stock with zero purchase price. -/
theorem summary_divisions_zero_denominator_witness :
    (portfolio_summary_totals []).percentProfitLoss = 0
    ∧ (portfolio_summary_totals []).avgPurchasePrice = 0
    ∧ (portfolio_summary_totals []).avgCurrentPrice = 0
    ∧ fetch_stock_details (fun _ => none) ⟨1, "ZRO", 1, 0, -10⟩ = .error () :=
  summary_divisions_zero_denominator [] ⟨1, "ZRO", 1, 0, -10⟩ (fun _ => none)
    (by norm_num [portfolio_summary_totals]) (by norm_num [portfolio_summary_totals]) rfl

/-- With a nonzero purchase price the per-position task always returns
a row whose id is the id of its stock, whatever the provider did. -/
lemma fetch_all_details_ok (provider : String → Option ℚ) (ps : List Stock)
    (h : ∀ s ∈ ps, s.purchase_price ≠ 0) :
    ∃ snaps, fetch_all_details provider ps = .ok snaps
      ∧ snaps.length = ps.length
      ∧ snaps.map Snapshot.positionId = ps.map Stock.id := by
  induction ps with
  | nil => exact ⟨[], rfl, rfl, rfl⟩
  | cons s t ih =>
    have hs : s.purchase_price ≠ 0 := h s (by simp)
    obtain ⟨snaps, hok, hlen, hmap⟩ := ih (fun x hx => h x (by simp [hx]))
    have hfetch : fetch_stock_details provider s = .ok
        { positionId := s.id, symbol := s.symbol, shares := s.shares,
          purchasePrice := s.purchase_price,
          currentPrice := pyOr (get_current_stock_price provider s.symbol) s.purchase_price,
          changePercent :=
            (pyOr (get_current_stock_price provider s.symbol) s.purchase_price
              - s.purchase_price) / s.purchase_price * 100,
          threshold := s.threshold } := by
      simp [fetch_stock_details, hs]
    refine ⟨{ positionId := s.id, symbol := s.symbol, shares := s.shares,
              purchasePrice := s.purchase_price,
              currentPrice := pyOr (get_current_stock_price provider s.symbol) s.purchase_price,
              changePercent :=
                (pyOr (get_current_stock_price provider s.symbol) s.purchase_price
                  - s.purchase_price) / s.purchase_price * 100,
              threshold := s.threshold } :: snaps, ?_, by simp [hlen], by simp [hmap]⟩
    simp [fetch_all_details, hfetch, hok]

/-- C3: on a non-empty portfolio the fan-out/fan-in produces exactly one
snapshot per input position id, however many provider calls fail, and
this survives any completion order (any permutation of the collected
results still carries exactly the input ids). -/
theorem fetch_all_one_snapshot_per_position (provider : String → Option ℚ)
    (ps : List Stock) (_hne : ps ≠ [])
    (h : ∀ s ∈ ps, s.purchase_price ≠ 0) :
    ∃ snaps, fetch_all_details provider ps = .ok snaps
      ∧ snaps.length = ps.length
      ∧ snaps.map Snapshot.positionId = ps.map Stock.id
      ∧ ∀ res : List Snapshot, List.Perm res snaps →
          res.length = ps.length
          ∧ List.Perm (res.map Snapshot.positionId) (ps.map Stock.id) := by
  obtain ⟨snaps, hok, hlen, hmap⟩ := fetch_all_details_ok provider ps h
  refine ⟨snaps, hok, hlen, hmap, fun res hperm => ⟨?_, ?_⟩⟩
  · rw [hperm.length_eq, hlen]
  · rw [← hmap]
    exact hperm.map _

/-- Witness for C3: two positions, the provider failing on the first
and answering on the second. -/
theorem fetch_all_one_snapshot_per_position_witness :
    ∃ snaps,
      fetch_all_details (fun sym => if sym = "A.TO" then none else some 60)
          [⟨1, "A", 2, 100, -10⟩, ⟨2, "B", 3, 50, -5⟩] = .ok snaps
      ∧ snaps.length = ([⟨1, "A", 2, 100, -10⟩, ⟨2, "B", 3, 50, -5⟩] : List Stock).length
      ∧ snaps.map Snapshot.positionId
          = ([⟨1, "A", 2, 100, -10⟩, ⟨2, "B", 3, 50, -5⟩] : List Stock).map Stock.id
      ∧ ∀ res : List Snapshot, List.Perm res snaps →
          res.length = ([⟨1, "A", 2, 100, -10⟩, ⟨2, "B", 3, 50, -5⟩] : List Stock).length
          ∧ List.Perm (res.map Snapshot.positionId)
              (([⟨1, "A", 2, 100, -10⟩, ⟨2, "B", 3, 50, -5⟩] : List Stock).map Stock.id) :=
  fetch_all_one_snapshot_per_position _ _ (by simp) (by norm_num)

/-- For a stock with nonzero purchase price the monitor body cannot
raise, and a failed fetch yields no alert. -/
lemma monitor_eval_ok (provider : String → Option ℚ) (s : Stock)
    (hs : s.purchase_price ≠ 0) :
    ∃ b, monitor_eval provider s = .ok b
      ∧ (get_current_stock_price provider s.symbol = none → b = false) := by
  cases hq : get_current_stock_price provider s.symbol with
  | none => exact ⟨false, by simp [monitor_eval, hq], fun _ => rfl⟩
  | some p =>
    by_cases hp : p = 0
    · exact ⟨false, by simp [monitor_eval, hq, hp], by simp⟩
    · exact ⟨decide (monitor_change s p ≤ s.threshold),
        by simp [monitor_eval, hq, hp, hs], by simp [hq]⟩

/-- C7: in a monitor cycle over positions with nonzero purchase prices,
a failed quote fetch produces no alert for that position, and every
position of the cycle still gets evaluated (one boolean outcome each,
in order). -/
theorem monitor_failed_fetch_skips_and_continues (provider : String → Option ℚ)
    (ps : List Stock) (h : ∀ s ∈ ps, s.purchase_price ≠ 0) :
    ∃ bs, monitor_portfolio_cycle provider ps = .ok bs
      ∧ bs.length = ps.length
      ∧ List.Forall₂ (fun (s : Stock) (b : Bool) =>
          monitor_eval provider s = .ok b
          ∧ (get_current_stock_price provider s.symbol = none → b = false)) ps bs := by
  induction ps with
  | nil => exact ⟨[], rfl, rfl, List.Forall₂.nil⟩
  | cons s t ih =>
    obtain ⟨bs, hok, hlen, hfa⟩ := ih (fun x hx => h x (by simp [hx]))
    obtain ⟨b, hb, hbf⟩ := monitor_eval_ok provider s (h s (by simp))
    refine ⟨b :: bs, ?_, by simp [hlen], List.Forall₂.cons ⟨hb, hbf⟩ hfa⟩
    simp [monitor_portfolio_cycle, hb, hok]

/-- Witness for C7: a provider that fails on every symbol over a
two-position portfolio; both positions are evaluated, neither alerts. -/
theorem monitor_failed_fetch_skips_and_continues_witness :
    ∃ bs, monitor_portfolio_cycle (fun _ => none)
        [⟨1, "A", 1, 100, -10⟩, ⟨2, "B", 1, 50, -5⟩] = .ok bs
      ∧ bs.length = ([⟨1, "A", 1, 100, -10⟩, ⟨2, "B", 1, 50, -5⟩] : List Stock).length
      ∧ List.Forall₂ (fun (s : Stock) (b : Bool) =>
          monitor_eval (fun _ => none) s = .ok b
          ∧ (get_current_stock_price (fun _ => none) s.symbol = none → b = false))
        [⟨1, "A", 1, 100, -10⟩, ⟨2, "B", 1, 50, -5⟩] bs :=
  monitor_failed_fetch_skips_and_continues (fun _ => none) _ (by norm_num)

lemma renumber_length (n : Nat) (l : List Stock) :
    (renumber n l).length = l.length := by
  induction l generalizing n with
  | nil => rfl
  | cons s t ih => simp [renumber, ih]

/-- Renumbering from `n` writes the consecutive ids `n, n+1, ...`. -/
lemma renumber_map_id (n : Nat) (l : List Stock) :
    (renumber n l).map Stock.id = List.range' n l.length := by
  induction l generalizing n with
  | nil => rfl
  | cons s t ih => simp [renumber, List.range', ih]

/-- Renumbering changes no field other than the id. -/
lemma renumber_map_fields (n : Nat) (l : List Stock) :
    (renumber n l).map stockFields = l.map stockFields := by
  induction l generalizing n with
  | nil => rfl
  | cons s t ih => simp [renumber, stockFields, ih]

/-- Dropping the unique occurrence of an id shortens the list by one. -/
lemma length_filter_ne_of_nodup (stock_id : Nat) (ps : List Stock)
    (hn : (ps.map Stock.id).Nodup) (hm : stock_id ∈ ps.map Stock.id) :
    (ps.filter (fun s => s.id ≠ stock_id)).length = ps.length - 1 := by
  induction ps with
  | nil => simp at hm
  | cons a t ih =>
    simp only [List.map_cons, List.nodup_cons] at hn
    obtain ⟨ha, ht⟩ := hn
    simp only [List.map_cons, List.mem_cons] at hm
    by_cases he : a.id = stock_id
    · have hkeep : t.filter (fun s => s.id ≠ stock_id) = t := by
        apply List.filter_eq_self.mpr
        intro x hx
        have hxne : x.id ≠ stock_id := by
          intro hxe
          have hmem : x.id ∈ t.map Stock.id := List.mem_map_of_mem Stock.id hx
          rw [hxe, ← he] at hmem
          exact ha hmem
        simp [hxne]
      have hstep : (a :: t).filter (fun s => s.id ≠ stock_id)
          = t.filter (fun s => s.id ≠ stock_id) := by
        simp [List.filter_cons, he]
      rw [hstep, hkeep]
      simp
    · have hm2 : stock_id ∈ t.map Stock.id := by
        rcases hm with h1 | h2
        · exact absurd h1.symm he
        · exact h2
      have hpos : 0 < t.length := by
        rcases List.mem_map.mp hm2 with ⟨x, hx, _⟩
        exact List.length_pos.mpr (List.ne_nil_of_mem hx)
      have hstep : (a :: t).filter (fun s => s.id ≠ stock_id)
          = a :: t.filter (fun s => s.id ≠ stock_id) := by
        simp [List.filter_cons, he]
      rw [hstep]
      simp only [List.length_cons]
      rw [ih ht hm2]
      omega

/-- C4: deleting a present id from a list with unique ids leaves the
other positions, in their original relative order and with all their
other fields intact, reindexed to the contiguous ids `1..N-1`. -/
theorem delete_stock_reindexes (stock_id : Nat) (ps : List Stock)
    (hn : (ps.map Stock.id).Nodup) (hm : stock_id ∈ ps.map Stock.id) :
    (delete_stock stock_id ps).length = ps.length - 1
    ∧ (delete_stock stock_id ps).map Stock.id = List.range' 1 (ps.length - 1)
    ∧ (delete_stock stock_id ps).map stockFields
        = (ps.filter (fun s => s.id ≠ stock_id)).map stockFields := by
  have hflen := length_filter_ne_of_nodup stock_id ps hn hm
  refine ⟨?_, ?_, ?_⟩
  · rw [delete_stock, renumber_length, hflen]
  · rw [delete_stock, renumber_map_id, hflen]
  · rw [delete_stock, renumber_map_fields]

/-- Witness for C4: delete id 2 out of the ids 1, 2, 3. -/
theorem delete_stock_reindexes_witness :
    (delete_stock 2 [⟨1, "A", 1, 10, -1⟩, ⟨2, "B", 2, 20, -2⟩, ⟨3, "C", 3, 30, -3⟩]).length
        = ([⟨1, "A", 1, 10, -1⟩, ⟨2, "B", 2, 20, -2⟩, ⟨3, "C", 3, 30, -3⟩] : List Stock).length - 1
    ∧ (delete_stock 2 [⟨1, "A", 1, 10, -1⟩, ⟨2, "B", 2, 20, -2⟩, ⟨3, "C", 3, 30, -3⟩]).map Stock.id
        = List.range' 1 (([⟨1, "A", 1, 10, -1⟩, ⟨2, "B", 2, 20, -2⟩, ⟨3, "C", 3, 30, -3⟩] : List Stock).length - 1)
    ∧ (delete_stock 2 [⟨1, "A", 1, 10, -1⟩, ⟨2, "B", 2, 20, -2⟩, ⟨3, "C", 3, 30, -3⟩]).map stockFields
        = (([⟨1, "A", 1, 10, -1⟩, ⟨2, "B", 2, 20, -2⟩, ⟨3, "C", 3, 30, -3⟩] : List Stock).filter
            (fun s => s.id ≠ 2)).map stockFields :=
  delete_stock_reindexes 2 _ (by decide) (by decide)

/-- When the target id occurs nowhere, `update_stock` leaves the list
exactly as it was (and it is then written back unchanged). -/
lemma update_stock_of_not_mem (stock_id : Nat) (symbol : String) (shares : Nat)
    (purchase_price threshold : ℚ) (ps : List Stock)
    (h : stock_id ∉ ps.map Stock.id) :
    update_stock stock_id symbol shares purchase_price threshold ps = ps := by
  induction ps with
  | nil => rfl
  | cons a t ih =>
    simp only [List.map_cons, List.mem_cons, not_or] at h
    have hne : a.id ≠ stock_id := fun he => h.1 he.symm
    simp [update_stock, hne, ih h.2]

/-- With unique ids, `update_stock` acts entrywise: the matching entry
gets the four new fields (id untouched), every other entry is returned
unchanged. -/
lemma update_stock_eq_map (stock_id : Nat) (symbol : String) (shares : Nat)
    (purchase_price threshold : ℚ) (ps : List Stock)
    (hn : (ps.map Stock.id).Nodup) :
    update_stock stock_id symbol shares purchase_price threshold ps
      = ps.map (fun s => if s.id = stock_id then
          { s with symbol := symbol, shares := shares,
                   purchase_price := purchase_price, threshold := threshold } else s) := by
  induction ps with
  | nil => rfl
  | cons a t ih =>
    simp only [List.map_cons, List.nodup_cons] at hn
    obtain ⟨ha, ht⟩ := hn
    by_cases he : a.id = stock_id
    · have htail : t.map (fun s => if s.id = stock_id then
          { s with symbol := symbol, shares := shares,
                   purchase_price := purchase_price, threshold := threshold } else s) = t := by
        rw [List.map_congr_left (g := id) ?_, List.map_id]
        intro x hx
        have : x.id ≠ stock_id := fun hxe => ha (he ▸ hxe ▸ List.mem_map_of_mem Stock.id hx)
        simp [this]
      simp [update_stock, he, htail]
    · simp [update_stock, he, ih ht]

/-- C10: with unique ids, updating by id rewrites exactly the matching
entry with the new symbol, shares, purchase price and threshold, keeps
its id and every other entry untouched; a missing id leaves the whole
list unchanged. -/
theorem update_stock_frame (stock_id : Nat) (symbol : String) (shares : Nat)
    (purchase_price threshold : ℚ) (ps : List Stock)
    (hn : (ps.map Stock.id).Nodup) :
    update_stock stock_id symbol shares purchase_price threshold ps
      = ps.map (fun s => if s.id = stock_id then
          { s with symbol := symbol, shares := shares,
                   purchase_price := purchase_price, threshold := threshold } else s)
    ∧ (stock_id ∉ ps.map Stock.id →
        update_stock stock_id symbol shares purchase_price threshold ps = ps) :=
  ⟨update_stock_eq_map stock_id symbol shares purchase_price threshold ps hn,
    update_stock_of_not_mem stock_id symbol shares purchase_price threshold ps⟩

/-- Witness for C10: update id 1 in a two-entry portfolio. -/
theorem update_stock_frame_witness :
    update_stock 1 "NEW" 7 55 (-3) [⟨1, "A", 1, 10, -1⟩, ⟨2, "B", 2, 20, -2⟩]
      = ([⟨1, "A", 1, 10, -1⟩, ⟨2, "B", 2, 20, -2⟩] : List Stock).map
          (fun s => if s.id = 1 then
            { s with symbol := "NEW", shares := 7, purchase_price := 55, threshold := -3 } else s)
    ∧ ((1 : Nat) ∉ ([⟨1, "A", 1, 10, -1⟩, ⟨2, "B", 2, 20, -2⟩] : List Stock).map Stock.id →
        update_stock 1 "NEW" 7 55 (-3) [⟨1, "A", 1, 10, -1⟩, ⟨2, "B", 2, 20, -2⟩]
          = [⟨1, "A", 1, 10, -1⟩, ⟨2, "B", 2, 20, -2⟩]) :=
  update_stock_frame 1 "NEW" 7 55 (-3) _ (by decide)

/-- Decoding inverts encoding on a single entry. -/
lemma decode_encode_stock (s : Stock) : decode_stock (encode_stock s) = some s := by
  simp [encode_stock, decode_stock, jlookup]

/-- Decoding inverts encoding on the whole stored list. -/
lemma decode_save_portfolio_data (ps : List Stock) :
    decode_portfolio_data (save_portfolio_data ps) = some ps := by
  simp only [save_portfolio_data, decode_portfolio_data]
  induction ps with
  | nil => rfl
  | cons s t ih => simp [decode_stocks, decode_encode_stock, ih]

/-- C8: loading a stored portfolio reproduces exactly the list that was
saved (same ids, fields and order), and re-saving the loaded value
stores back the identical serialized value. -/
theorem save_load_roundtrip (ps : List Stock) :
    load_portfolio_data (some (save_portfolio_data ps)) = some ps
    ∧ Option.map save_portfolio_data (load_portfolio_data (some (save_portfolio_data ps)))
        = some (save_portfolio_data ps) := by
  have h : load_portfolio_data (some (save_portfolio_data ps)) = some ps :=
    decode_save_portfolio_data ps
  exact ⟨h, by rw [h]; rfl⟩

end TUSX
